import Mathlib

/-!
Verification of the agent-aware evaluation harness (orchestration engine).

This file shallowly embeds the harness's data model and operations:
the port allocator, the workspace manager, the transcript recorder, the
concurrency limiter, the grader dispatcher and the trial runner, as found in
`src/evals/harness/environment.ts`, `src/evals/harness/transcript.ts` and the
workspace-manager / type-definition modules.  Wall-clock instants, random
identifier suffixes and all external effects (file system, child processes,
network, the AI agent) are abstracted into explicit parameters ("oracles");
everything else follows the source line by line.  JS `Set` objects are
modelled as `Finset Nat`, JS `Map`s as association lists with
insert-or-overwrite semantics, JS exceptions as `Except String`.
-/

-- ==================== Port allocator ====================
-- Source: `class PortAllocator` in src/evals/harness/environment.ts.
-- `allocatedPorts: Set<number>` becomes a `Finset Nat`;
-- `portLock: Map<string, number>` becomes an association list.

structure PortAllocator where
  basePort : Nat
  portRange : Nat
  allocatedPorts : Finset Nat
  portLock : List (String × Nat)
deriving DecidableEq

/-- Lookup in an association list, mirroring JS `Map.get`. -/
def assocLookup {α : Type} (k : String) : List (String × α) → Option α
  | [] => none
  | (k0, v) :: rest => if k0 = k then some v else assocLookup k rest

/-- The `while (allocatedPorts.has(port) && port < basePort + portRange) port += 2`
loop of `PortAllocator.allocate`.  `gas` is structural fuel; `gas = bound`
is enough for the loop to run to completion (the port advances by 2 per step). -/
def findFreePortGo (allocated : Finset Nat) (bound : Nat) : Nat → Nat → Nat
  | 0, port => port
  | gas + 1, port =>
    if port ∈ allocated ∧ port < bound then
      findFreePortGo allocated bound gas (port + 2)
    else
      port

/-- Model of `PortAllocator.allocate(taskId)`: idempotent per task id; draws the next
free even-offset pair; throws when the configured range is exhausted. -/
def PortAllocator.allocate (a : PortAllocator) (taskId : String) :
    Except String ((Nat × Nat) × PortAllocator) :=
  match assocLookup taskId a.portLock with
  | some base =>
    -- task already holds a pair: return it, touch nothing
    .ok ((base, base + 1), a)
  | none =>
    let bound := a.basePort + a.portRange
    let port := findFreePortGo a.allocatedPorts bound bound a.basePort
    if port ≥ bound then
      .error "端口资源耗尽，无法分配更多端口"
    else
      .ok ((port, port + 1),
        { a with
          allocatedPorts := insert (port + 1) (insert port a.allocatedPorts),
          portLock := (taskId, port) :: a.portLock })

/-- Model of `PortAllocator.release(taskId)`. -/
def PortAllocator.release (a : PortAllocator) (taskId : String) : PortAllocator :=
  match assocLookup taskId a.portLock with
  | some port =>
    { a with
      allocatedPorts := (a.allocatedPorts.erase port).erase (port + 1),
      portLock := a.portLock.filter (fun kv => kv.fst ≠ taskId) }
  | none => a

/-- A fresh allocator as constructed by `new PortAllocator(5200, 100)`. -/
def PortAllocator.mk0 (basePort portRange : Nat) : PortAllocator :=
  ⟨basePort, portRange, ∅, []⟩

-- ==================== Workspace manager ====================
-- Source: `class WorkspaceManager` in the workspace-manager module.
-- Directories are modelled as segment lists: `path.join(baseDir, id)` becomes
-- `[baseDir, id]` and the detection directory `[baseDir, id, ".agent-aware"]`.
-- `Date.now()` and the random id suffix are oracle parameters of `create`.

structure IsolatedWorkspace where
  id : String
  taskId : String
  projectDir : List String
  agentAwareDir : List String
  devPort : Nat
  serverPort : Nat
  cleaned : Bool
  createdAt : Nat
deriving DecidableEq

structure WorkspaceManager where
  baseDir : String
  basePort : Nat
  allocatedPorts : Finset Nat
  workspaces : List (String × IsolatedWorkspace)
deriving DecidableEq

/-- JS `Map.set`: overwrite in place if the key exists, else append. -/
def mapSet {α : Type} (k : String) (v : α) : List (String × α) → List (String × α)
  | [] => [(k, v)]
  | (k0, v0) :: rest => if k0 = k then (k, v) :: rest else (k0, v0) :: mapSet k v rest

/-- The unbounded
`while (allocatedPorts.has(port) || allocatedPorts.has(port + 1)) port += 2`
loop of `WorkspaceManager.allocatePorts`.  Structural fuel; `gas = card + 1`
always suffices because each iteration consumes at least one allocated port
at or above the current position. -/
def wmFindPortGo (allocated : Finset Nat) : Nat → Nat → Nat
  | 0, port => port
  | gas + 1, port =>
    if port ∈ allocated ∨ port + 1 ∈ allocated then
      wmFindPortGo allocated gas (port + 2)
    else
      port

/-- Model of `WorkspaceManager.allocatePorts()` (private helper).  Note: unlike
`PortAllocator.allocate`, this loop has no configured range bound and
cannot fail. -/
def WorkspaceManager.allocatePorts (m : WorkspaceManager) :
    (Nat × Nat) × WorkspaceManager :=
  let port := wmFindPortGo m.allocatedPorts (m.allocatedPorts.card + 1) m.basePort
  ((port, port + 1),
   { m with allocatedPorts := insert (port + 1) (insert port m.allocatedPorts) })

/-- The workspace id `` `${taskId}-${Date.now()}-${random}` ``. -/
def mkWorkspaceId (taskId : String) (now : Nat) (rand : String) : String :=
  taskId ++ "-" ++ toString now ++ "-" ++ rand

/-- Model of `WorkspaceManager.create(taskId, options)`.  Template materialization,
dependency install and the setup script only touch the file system and are
catch-wrapped in the source (they degrade but never abort the create), so the
state-relevant effect is: allocate a port pair, record the new workspace under
its generated id.  `now` and `rand` stand for `Date.now()` and the random
suffix. -/
def WorkspaceManager.create (m : WorkspaceManager) (taskId : String)
    (now : Nat) (rand : String) : IsolatedWorkspace × WorkspaceManager :=
  let id := mkWorkspaceId taskId now rand
  let pm := m.allocatePorts
  let ws : IsolatedWorkspace :=
    { id := id
      taskId := taskId
      projectDir := [m.baseDir, id]
      agentAwareDir := [m.baseDir, id, ".agent-aware"]
      devPort := pm.fst.fst
      serverPort := pm.fst.snd
      cleaned := false
      createdAt := now }
  (ws, { pm.snd with workspaces := mapSet id ws pm.snd.workspaces })

/-- Model of `WorkspaceManager.cleanup(id, keepFiles)`: idempotent; releases the
workspace's ports and marks it cleaned (`keepFiles` only affects the file
system). -/
def WorkspaceManager.cleanup (m : WorkspaceManager) (id : String)
    (_keepFiles : Bool) : WorkspaceManager :=
  match assocLookup id m.workspaces with
  | none => m
  | some ws =>
    if ws.cleaned then m
    else
      { m with
        allocatedPorts := (m.allocatedPorts.erase ws.devPort).erase ws.serverPort,
        workspaces := mapSet id { ws with cleaned := true } m.workspaces }

/-- A fresh manager as constructed by `new WorkspaceManager(config)`. -/
def WorkspaceManager.mk0 (baseDir : String) (basePort : Nat) : WorkspaceManager :=
  ⟨baseDir, basePort, ∅, []⟩

/-- One public state transition of a `WorkspaceManager`. -/
inductive WMStep : WorkspaceManager → WorkspaceManager → Prop where
  | create (m : WorkspaceManager) (taskId : String) (now : Nat) (rand : String) :
      WMStep m (m.create taskId now rand).snd
  | cleanup (m : WorkspaceManager) (id : String) (keep : Bool) :
      WMStep m (m.cleanup id keep)

/-- States reachable from a fresh manager through `create`/`cleanup` calls. -/
inductive WMReachable (baseDir : String) (basePort : Nat) : WorkspaceManager → Prop where
  | init : WMReachable baseDir basePort (WorkspaceManager.mk0 baseDir basePort)
  | step {m m' : WorkspaceManager} :
      WMReachable baseDir basePort m → WMStep m m' → WMReachable baseDir basePort m'

-- ==================== Grader result ====================
-- Source: `interface GraderResult` in the eval type-definition module.
-- The JS number score is modelled as a rational; the free-form
-- `details: Record<string, unknown>` map as string key/value pairs.

structure GraderResult where
  type : String
  passed : Bool
  score : ℚ
  details : List (String × String)
  error : Option String
deriving DecidableEq

-- ==================== Transcript recorder ====================
-- Source: `class TranscriptRecorder` in src/evals/harness/transcript.ts.
-- Each public method takes the current wall-clock instant `now` explicitly
-- (the source reads `Date.now()`).

inductive TEntryContent where
  | userMessage (text : String)
  | assistantMessage (text : String)
  | toolCall (name : String) (input : String) (output : Option String)
  | toolResult (name : String) (result : String)
  | stepStart (step : String)
  | stepFinish (step : String) (success : Bool)
  | error (message : String) (stack : Option String)
  | graderResult (result : GraderResult)
  | chunk (ctype : String) (payload : String)
deriving DecidableEq

structure TranscriptEntry where
  timestamp : Nat
  type : String
  content : TEntryContent
deriving DecidableEq

structure TranscriptRecorder where
  startTime : Nat
  entries : List TranscriptEntry
deriving DecidableEq

/-- Model of `new TranscriptRecorder()`. -/
def TranscriptRecorder.init (now : Nat) : TranscriptRecorder := ⟨now, []⟩

/-- The private `record(type, content)`: push one entry with the relative
timestamp `Date.now() - startTime`. -/
def TranscriptRecorder.record (r : TranscriptRecorder) (now : Nat)
    (type : String) (content : TEntryContent) : TranscriptRecorder :=
  { r with entries := r.entries ++ [⟨now - r.startTime, type, content⟩] }

def TranscriptRecorder.recordUserMessage (r : TranscriptRecorder) (now : Nat)
    (message : String) : TranscriptRecorder :=
  r.record now "user_message" (.userMessage message)

def TranscriptRecorder.recordAssistantMessage (r : TranscriptRecorder) (now : Nat)
    (message : String) : TranscriptRecorder :=
  r.record now "assistant_message" (.assistantMessage message)

def TranscriptRecorder.recordToolCall (r : TranscriptRecorder) (now : Nat)
    (name : String) (input : String) (output : Option String) : TranscriptRecorder :=
  r.record now "tool_call" (.toolCall name input output)

def TranscriptRecorder.recordToolResult (r : TranscriptRecorder) (now : Nat)
    (name : String) (result : String) : TranscriptRecorder :=
  r.record now "tool_result" (.toolResult name result)

def TranscriptRecorder.recordStepStart (r : TranscriptRecorder) (now : Nat)
    (step : String) : TranscriptRecorder :=
  r.record now "step_start" (.stepStart step)

def TranscriptRecorder.recordStepFinish (r : TranscriptRecorder) (now : Nat)
    (step : String) (success : Bool) : TranscriptRecorder :=
  r.record now "step_finish" (.stepFinish step success)

def TranscriptRecorder.recordError (r : TranscriptRecorder) (now : Nat)
    (message : String) (stack : Option String) : TranscriptRecorder :=
  r.record now "error" (.error message stack)

def TranscriptRecorder.recordGraderResult (r : TranscriptRecorder) (now : Nat)
    (result : GraderResult) : TranscriptRecorder :=
  r.record now "grader_result" (.graderResult result)

/-- Model of `recordChunk`: only `tool-call`, `tool-result` and `finish` chunks are kept. -/
def TranscriptRecorder.recordChunk (r : TranscriptRecorder) (now : Nat)
    (ctype : String) (payload : String) : TranscriptRecorder :=
  if ctype = "tool-call" ∨ ctype = "tool-result" ∨ ctype = "finish" then
    r.record now ctype (.chunk ctype payload)
  else r

/-- Model of `getEntries()` returns a copy of the entry list. -/
def TranscriptRecorder.getEntries (r : TranscriptRecorder) : List TranscriptEntry :=
  r.entries

/-- Model of `clear()`: drop all entries and reset the start time. -/
def TranscriptRecorder.clear (r : TranscriptRecorder) (now : Nat) : TranscriptRecorder :=
  let _ := r
  ⟨now, []⟩

/-- One public mutating operation of the recorder, tagged with the instant at
which it is invoked. -/
inductive RecorderOp where
  | userMessage (now : Nat) (text : String)
  | assistantMessage (now : Nat) (text : String)
  | toolCall (now : Nat) (name : String) (input : String) (output : Option String)
  | toolResult (now : Nat) (name : String) (result : String)
  | stepStart (now : Nat) (step : String)
  | stepFinish (now : Nat) (step : String) (success : Bool)
  | error (now : Nat) (message : String) (stack : Option String)
  | graderResult (now : Nat) (result : GraderResult)
  | chunk (now : Nat) (ctype : String) (payload : String)
  | clear (now : Nat)
deriving DecidableEq

def applyRecorderOp (r : TranscriptRecorder) : RecorderOp → TranscriptRecorder
  | .userMessage now t => r.recordUserMessage now t
  | .assistantMessage now t => r.recordAssistantMessage now t
  | .toolCall now n i o => r.recordToolCall now n i o
  | .toolResult now n res => r.recordToolResult now n res
  | .stepStart now s => r.recordStepStart now s
  | .stepFinish now s ok => r.recordStepFinish now s ok
  | .error now m st => r.recordError now m st
  | .graderResult now res => r.recordGraderResult now res
  | .chunk now c p => r.recordChunk now c p
  | .clear now => r.clear now

def applyRecorderOps (r : TranscriptRecorder) : List RecorderOp → TranscriptRecorder
  | [] => r
  | op :: rest => applyRecorderOps (applyRecorderOp r op) rest

/-- Whether an operation is the `clear()` method. -/
def RecorderOp.isClear : RecorderOp → Bool
  | .clear _ => true
  | _ => false

-- ==================== Concurrency limiter ====================
-- Source: `class ConcurrencyLimiter` in src/evals/harness/environment.ts.
-- `running` is the number of callers currently holding a slot; we track them
-- by id in `holders` (so `running = holders.length`), and `queue` holds the
-- suspended waiters' ids in arrival order.  `arrived` and `woken` are
-- history variables logging, respectively, the order in which callers were
-- enqueued and the order in which `release()` woke them.

structure LimiterState where
  maxConcurrency : Nat
  holders : List Nat
  queue : List Nat
  arrived : List Nat
  woken : List Nat
deriving DecidableEq

def LimiterState.init (maxConcurrency : Nat) : LimiterState :=
  ⟨maxConcurrency, [], [], [], []⟩

/-- Model of `acquire()` by caller `w`: grab a slot at once if `running < maxConcurrency`,
otherwise suspend at the tail of the FIFO queue. -/
def LimiterState.acquire (s : LimiterState) (w : Nat) : LimiterState :=
  if s.holders.length < s.maxConcurrency then
    { s with holders := s.holders ++ [w] }
  else
    { s with queue := s.queue ++ [w], arrived := s.arrived ++ [w] }

/-- Model of `release()` by holder `w`: decrement `running` (drop `w` from the holders),
then `queue.shift()` and wake the dequeued waiter, if any. -/
def LimiterState.release (s : LimiterState) (w : Nat) : LimiterState :=
  let s1 := { s with holders := s.holders.erase w }
  match s1.queue with
  | [] => s1
  | x :: rest =>
    { s1 with holders := s1.holders ++ [x], queue := rest, woken := s1.woken ++ [x] }

inductive LimiterEvent where
  | acquire (w : Nat)
  | release (w : Nat)
deriving DecidableEq

def LimiterState.stepEvent (s : LimiterState) : LimiterEvent → LimiterState
  | .acquire w => s.acquire w
  | .release w => s.release w

def LimiterState.run (s : LimiterState) : List LimiterEvent → LimiterState
  | [] => s
  | e :: rest => (s.stepEvent e).run rest

/-- Balanced use of the limiter: `release` is only invoked by a caller that
holds a slot, and caller ids are fresh on `acquire` (each caller is a distinct
suspended computation). -/
def validEvents (s : LimiterState) : List LimiterEvent → Bool
  | [] => true
  | .acquire w :: rest =>
      !(decide (w ∈ s.holders)) && !(decide (w ∈ s.queue)) &&
      validEvents (s.acquire w) rest
  | .release w :: rest =>
      decide (w ∈ s.holders) && validEvents (s.release w) rest

-- ==================== Grader configurations ====================
-- Source: the `GraderConfig` tagged union in the eval type-definition module.
-- One constructor per variant; each variant carries the fields its strategy
-- needs.  Regular-expression fields, JSON test payloads and rubric content are
-- carried as strings.  The extra `unknownTag` constructor stands for a runtime
-- configuration value whose `type` tag matches no variant (TypeScript types
-- are erased at runtime; the dispatcher's `default` branch exists for exactly
-- this case).

structure DependencyChecks where
  packageName : String
  importCheck : Option String
  initCheck : Option String
  targetFile : Option String
deriving DecidableEq

structure DependencyGraderConfig where
  checks : DependencyChecks
deriving DecidableEq

structure ServerGraderConfig where
  port : Nat
  endpoint : String
  timeout : Option Nat
  method : Option String
  startCommand : Option String
deriving DecidableEq

structure DataCollectionGraderConfig where
  testData : List String
  expectedFields : List String
  endpoint : String
  port : Nat
deriving DecidableEq

structure StorageGraderConfig where
  filePath : String
  minRecords : Option Nat
  expectedFields : Option (List String)
deriving DecidableEq

structure ContextGraderConfig where
  expectedAnswer : String
  responseIndex : Option Nat
deriving DecidableEq

structure DetectionGraderConfig where
  issues : List String
  fixedFilePath : Option String
deriving DecidableEq

structure ErrorCase where
  name : String
  requestBody : Option String
  requestContentType : Option String
  expectStatus : Nat
deriving DecidableEq

structure ErrorHandleGraderConfig where
  errorCases : List ErrorCase
  port : Nat
  endpoint : String
deriving DecidableEq

structure CodeChecks where
  npmInstall : Option Bool
  npmBuild : Option Bool
  fileExists : Option (List String)
  fileContains : Option (List (String × String))
deriving DecidableEq

structure CodeGraderConfig where
  checks : CodeChecks
deriving DecidableEq

structure LLMGraderConfig where
  rubric : String
  dimensions : List String
  threshold : Option ℚ
deriving DecidableEq

structure UserAction where
  type : String
  selector : Option String
  value : Option String
  timeout : Option Nat
deriving DecidableEq

structure RuntimeGraderConfig where
  port : Nat
  timeout : Option Nat
  expectText : Option (List String)
  expectSelector : Option (List String)
  startCommand : Option String
  userActions : Option (List UserAction)
  waitForAgentAware : Option Bool
deriving DecidableEq

structure BehaviorChecks where
  frustration : Option Bool
  rageClick : Option Bool
  deadClick : Option Bool
  aiResponse : Option Bool
deriving DecidableEq

structure BehaviorGraderConfig where
  checks : BehaviorChecks
  expectedSeverity : Option String
  behaviorFilePath : Option String
deriving DecidableEq

structure AlertChecks where
  fileExists : Option Bool
  minErrorCount : Option Nat
  errorTypes : Option (List String)
  aiResponse : Option Bool
  errorMessageContains : Option (List String)
deriving DecidableEq

structure AlertGraderConfig where
  checks : AlertChecks
  errorFilePath : Option String
deriving DecidableEq

inductive GraderConfig where
  | dependency (cfg : DependencyGraderConfig)
  | server (cfg : ServerGraderConfig)
  | dataCollection (cfg : DataCollectionGraderConfig)
  | storage (cfg : StorageGraderConfig)
  | context (cfg : ContextGraderConfig)
  | detection (cfg : DetectionGraderConfig)
  | errorHandle (cfg : ErrorHandleGraderConfig)
  | code (cfg : CodeGraderConfig)
  | llm (cfg : LLMGraderConfig)
  | runtime (cfg : RuntimeGraderConfig)
  | behavior (cfg : BehaviorGraderConfig)
  | alert (cfg : AlertGraderConfig)
  | unknownTag (tag : String)
deriving DecidableEq

/-- The runtime string value of the configuration's `type` field. -/
def GraderConfig.typeTag : GraderConfig → String
  | .dependency _ => "dependency"
  | .server _ => "server"
  | .dataCollection _ => "data-collection"
  | .storage _ => "storage"
  | .context _ => "context"
  | .detection _ => "detection"
  | .errorHandle _ => "error-handle"
  | .code _ => "code"
  | .llm _ => "llm"
  | .runtime _ => "runtime"
  | .behavior _ => "behavior"
  | .alert _ => "alert"
  | .unknownTag tag => tag

-- ==================== Task definition ====================
-- Source: `interface EvalTask` in the eval type-definition module
-- (plus the `templateId` field the trial runner reads).

structure EvalTask where
  id : String
  name : String
  description : String
  userMessages : List String
  graders : List GraderConfig
  timeout : Option Nat
  setupScript : Option String
  category : Option String
  templateId : Option String
deriving DecidableEq

/-- Task-structure validation, translated from the required-field assertions
of the `任务结构验证` suite in src/evals/eval.test.ts: the id matches the
regex "three digits then a dash" anchored at the start, the name is non-empty,
and `task.graders.length` is greater than zero. -/
def idFormatOk (s : String) : Bool :=
  match s.data with
  | d1 :: d2 :: d3 :: h :: _ => d1.isDigit && d2.isDigit && d3.isDigit && h = '-'
  | _ => false

def taskStructureValid (t : EvalTask) : Bool :=
  idFormatOk t.id && decide (0 < t.name.length) && decide (0 < t.graders.length)

-- ==================== Port rewriting ====================
-- Source: `replacePortPlaceholders` / `rewriteTaskPorts` in
-- src/evals/harness/environment.ts.  JS `String.replace` with a global
-- literal pattern is a single left-to-right non-overlapping scan; the
-- third pattern uses word boundaries on both sides of the literal `4100`.

structure TaskContext where
  devPort : Nat
  serverPort : Nat
  taskIndex : Nat
  totalTasks : Nat
deriving DecidableEq

/-- One global-replace scan for a literal pattern, structural fuel on the
number of characters still to inspect (`fuel = s.length` always suffices:
every step consumes at least one character). -/
def replaceSubGo (pat repl : List Char) : Nat → List Char → List Char
  | _, [] => []
  | 0, s => s
  | fuel + 1, c :: rest =>
    if pat ≠ [] ∧ pat.isPrefixOf (c :: rest) then
      repl ++ replaceSubGo pat repl fuel (List.drop (pat.length - 1) rest)
    else
      c :: replaceSubGo pat repl fuel rest

def replaceSub (pat repl s : List Char) : List Char :=
  replaceSubGo pat repl s.length s

/-- JS regex word-character class `[A-Za-z0-9_]`. -/
def isWordChar (c : Char) : Bool :=
  c.isAlphanum || c = '_'

def nextIsWordChar : List Char → Bool
  | [] => false
  | d :: _ => isWordChar d

/-- Model of `str.replace(bounded4100Regex, repl)` where the regex is the literal
`4100` guarded by word boundaries on both sides.  `prevIsWord` records
whether the previously scanned character is a word character. -/
def replace4100Go (repl : List Char) : Nat → Bool → List Char → List Char
  | _, _, [] => []
  | 0, _, s => s
  | fuel + 1, prevIsWord, c :: rest =>
    if ¬prevIsWord ∧ ['4', '1', '0', '0'].isPrefixOf (c :: rest) ∧
        ¬(nextIsWordChar (List.drop 3 rest) = true) then
      repl ++ replace4100Go repl fuel true (List.drop 3 rest)
    else
      c :: replace4100Go repl fuel (isWordChar c) rest

def serverPortPat : List Char :=
  ['\x7b', '\x7b'] ++ "SERVER_PORT".data ++ ['\x7d', '\x7d']

def devPortPat : List Char :=
  ['\x7b', '\x7b'] ++ "DEV_PORT".data ++ ['\x7d', '\x7d']

/-- Model of `replacePortPlaceholders(str, context)`: substitute the SERVER_PORT
placeholder, then the DEV_PORT placeholder, then every word-bounded literal
`4100` (legacy hard-coded port), the last two both by the context's ports. -/
def replacePortPlaceholders (ctx : TaskContext) (s : String) : String :=
  let serverRepl := (toString ctx.serverPort).data
  let devRepl := (toString ctx.devPort).data
  let s1 := replaceSub serverPortPat serverRepl s.data
  let s2 := replaceSub devPortPat devRepl s1
  let s3 := replace4100Go serverRepl s2.length false s2
  String.mk s3

/-- The per-grader branch of `rewriteTaskPorts`: `server`, `data-collection`
and `error-handle` configurations get the server port, `runtime` gets the dev
port; every other configuration is returned as-is. -/
def rewriteGraderPorts (ctx : TaskContext) : GraderConfig → GraderConfig
  | .server cfg => .server { cfg with port := ctx.serverPort }
  | .runtime cfg => .runtime { cfg with port := ctx.devPort }
  | .dataCollection cfg => .dataCollection { cfg with port := ctx.serverPort }
  | .errorHandle cfg => .errorHandle { cfg with port := ctx.serverPort }
  | g => g

/-- Model of `rewriteTaskPorts(task, context)`. -/
def rewriteTaskPorts (task : EvalTask) (ctx : TaskContext) : EvalTask :=
  { task with
    graders := task.graders.map (rewriteGraderPorts ctx),
    setupScript := task.setupScript.map (replacePortPlaceholders ctx),
    userMessages := task.userMessages.map (replacePortPlaceholders ctx) }

/-- Whether `pat` occurs as a contiguous substring. -/
def containsSub (pat : List Char) : List Char → Bool
  | [] => pat.isEmpty
  | c :: rest => pat.isPrefixOf (c :: rest) || containsSub pat rest

/-- Whether a word-bounded occurrence of the literal `4100` exists, given
whether the character before the current position is a word character. -/
def containsStandalone4100 : Bool → List Char → Bool
  | _, [] => false
  | prevIsWord, c :: rest =>
    (!prevIsWord && ['4', '1', '0', '0'].isPrefixOf (c :: rest) &&
      !(nextIsWordChar (List.drop 3 rest))) ||
    containsStandalone4100 (isWordChar c) rest

/-- A string free of all three port-bearing tokens of
`replacePortPlaceholders`. -/
def noPortTokens (s : String) : Bool :=
  !(containsSub serverPortPat s.data) && !(containsSub devPortPat s.data) &&
  !(containsStandalone4100 false s.data)

/-- Whether the configuration's tag is one of the four the rewrite targets. -/
def GraderConfig.isPortRewritten : GraderConfig → Bool
  | .server _ => true
  | .runtime _ => true
  | .dataCollection _ => true
  | .errorHandle _ => true
  | _ => false

-- ==================== Agent client ====================
-- Source: the AI-client module (`callAI`, `runAgentTurn`).  The agent is an
-- external collaborator: each `callAI` invocation is an oracle outcome,
-- either a streamed response or a thrown error.

structure UIMessage where
  role : String
  content : String
deriving DecidableEq

structure ToolCall where
  toolCallId : String
  toolName : String
  input : String
  output : Option String
deriving DecidableEq

structure AIResponse where
  content : String
  toolCalls : List ToolCall
deriving DecidableEq

/-- Model of `runAgentTurn(options)`: append the user message, record it, call the AI;
on success record the assistant message and every tool call and extend the
message list; on error record a transcript error entry and return the message
list without an assistant response (the error is swallowed, not rethrown). -/
def runAgentTurn (outcome : Except String AIResponse) (userMessage : String)
    (previousMessages : List UIMessage) (recorder : TranscriptRecorder) :
    List UIMessage × List ToolCall × TranscriptRecorder :=
  let messages := previousMessages ++ [⟨"user", userMessage⟩]
  let rec1 := recorder.recordUserMessage 0 userMessage
  match outcome with
  | .ok response =>
    let rec2 := rec1.recordAssistantMessage 0 response.content
    let rec3 := response.toolCalls.foldl
      (fun r tc => r.recordToolCall 0 tc.toolName tc.input tc.output) rec2
    (messages ++ [⟨"assistant", response.content⟩], response.toolCalls, rec3)
  | .error msg =>
    let rec2 := rec1.recordError 0 msg none
    (messages, [], rec2)

/-- The conversation loop of `runTrial` (the real-AI branch): one
`runAgentTurn` per configured user message, threading the message history.
`calls` counts the `callAI` invocations, i.e. the turns actually sent to the
agent. -/
def runConversation (agent : Nat → Except String AIResponse) :
    List String → Nat → List UIMessage → TranscriptRecorder → Nat →
    List UIMessage × TranscriptRecorder × Nat
  | [], _, msgs, r, calls => (msgs, r, calls)
  | m :: rest, i, msgs, r, calls =>
    let step := runAgentTurn (agent i) m msgs r
    runConversation agent rest (i + 1) step.fst step.snd.snd (calls + 1)

-- ==================== Grader dispatch ====================
-- Source: `runGrader` in src/evals/harness/environment.ts.  The individual
-- grading strategies are external collaborators; each strategy invocation is
-- an oracle outcome (a result, or a thrown fault).  The `default` branch of
-- the dispatch switch throws for a tag matching no strategy.

def dispatchGrader (cfg : GraderConfig)
    (strategyOutcome : Except String GraderResult) : Except String GraderResult :=
  match cfg with
  | .unknownTag tag => .error ("未知的评分器类型: " ++ tag)
  | _ => strategyOutcome

/-- Model of `runGrader(graderConfig, env, recorder, config)`: record the step start,
dispatch; on success record the step finish and the grader result; on a
thrown fault record a failed step finish and the error, and return a failed
`GraderResult` with score 0 and the fault message. -/
def runGrader (cfg : GraderConfig) (strategyOutcome : Except String GraderResult)
    (recorder : TranscriptRecorder) : GraderResult × TranscriptRecorder :=
  let rec1 := recorder.recordStepStart 0 ("grader:" ++ cfg.typeTag)
  match dispatchGrader cfg strategyOutcome with
  | .ok result =>
    let rec2 := rec1.recordStepFinish 0 ("grader:" ++ cfg.typeTag) result.passed
    let rec3 := rec2.recordGraderResult 0 result
    (result, rec3)
  | .error msg =>
    let rec2 := rec1.recordStepFinish 0 ("grader:" ++ cfg.typeTag) false
    let rec3 := rec2.recordError 0 msg none
    ({ type := cfg.typeTag, passed := false, score := 0, details := [],
       error := some msg }, rec3)

/-- The value `runGrader` returns for one configuration and one strategy
outcome (independent of the recorder state). -/
def graderOutcome (cfg : GraderConfig)
    (strategyOutcome : Except String GraderResult) : GraderResult :=
  match dispatchGrader cfg strategyOutcome with
  | .ok result => result
  | .error msg =>
    { type := cfg.typeTag, passed := false, score := 0, details := [],
      error := some msg }

/-- The grading loop of `runTrial`: run each configured grader in declaration
order, collecting the results. -/
def runGraders (strategy : Nat → Except String GraderResult) :
    List GraderConfig → Nat → TranscriptRecorder →
    List GraderResult × TranscriptRecorder
  | [], _, r => ([], r)
  | cfg :: rest, i, r =>
    let pr := runGrader cfg (strategy i) r
    let tail := runGraders strategy rest (i + 1) pr.snd
    (pr.fst :: tail.fst, tail.snd)

-- ==================== Trial runner ====================
-- Source: `runTrial` in src/evals/harness/environment.ts (the real-AI
-- branch; `runTrialWithWorkspace` computes `passed`, `scores`, `outcome` and
-- the error path identically).  The oracle carries the outcome of each
-- effectful collaborator: environment creation, each agent call, each grading
-- strategy, and the final project-file listing.

structure OutcomeState where
  files : List String
  serverStarted : Bool
  dataCollected : Bool
  fileStored : Bool
  consoleErrors : List String
deriving DecidableEq

structure TrialResult where
  taskId : String
  trialIndex : Nat
  passed : Bool
  scores : List (String × ℚ)
  graderResults : List GraderResult
  transcript : List TranscriptEntry
  outcome : OutcomeState
  duration : Nat
  error : Option String
deriving DecidableEq

/-- Book-keeping about the `finally` block and the agent traffic of one
`runTrial` execution (not part of the returned `TrialResult`). -/
structure TrialMeta where
  envCreated : Bool
  cleanupCalled : Bool
  portReleased : Bool
  agentCallsMade : Nat
deriving DecidableEq

structure TrialOracle where
  setup : Except String Unit
  agent : Nat → Except String AIResponse
  strategy : Nat → Except String GraderResult
  listFiles : Except String (List String)

def emptyOutcome : OutcomeState := ⟨[], false, false, false, []⟩

/-- Model of `runTrial(task, trialIndex, config, progress, context?)`.  `hasContext`
records whether a task context was passed (the `finally` block releases the
task's ports exactly when it was).  On the catch path `env` is undefined for
a setup fault, so `env.cleanup()` runs only when environment creation
returned. -/
def runTrial (task : EvalTask) (trialIndex : Nat) (oracle : TrialOracle)
    (hasContext : Bool) : TrialResult × TrialMeta :=
  let recorder0 := TranscriptRecorder.init 0
  let rec1 := recorder0.recordStepStart 0 "setup"
  match oracle.setup with
  | .error e =>
    -- createIsolatedEnvironment threw: caught by runTrial's catch block
    let recE := rec1.recordError 0 e none
    (⟨task.id, trialIndex, false, [], [], recE.getEntries, emptyOutcome, 0, some e⟩,
     ⟨false, false, hasContext, 0⟩)
  | .ok _ =>
    let rec2 := rec1.recordStepFinish 0 "setup" true
    let rec3 := rec2.recordStepStart 0 "ai"
    let conv := runConversation oracle.agent task.userMessages 0 [] rec3 0
    let rec4 := conv.snd.fst.recordStepFinish 0 "ai" true
    let graded := runGraders oracle.strategy task.graders 0 rec4
    let results := graded.fst
    match oracle.listFiles with
    | .error e =>
      -- listProjectFiles threw while building the outcome snapshot
      let recE := graded.snd.recordError 0 e none
      (⟨task.id, trialIndex, false, [], [], recE.getEntries, emptyOutcome, 0, some e⟩,
       ⟨true, true, hasContext, conv.snd.snd⟩)
    | .ok files =>
      let outcome : OutcomeState :=
        ⟨files,
         results.any (fun r => r.type = "server" && r.passed),
         results.any (fun r => r.type = "data-collection" && r.passed),
         results.any (fun r => r.type = "storage" && r.passed),
         []⟩
      let passed := results.all (fun r => r.passed)
      let scores := results.map (fun r => (r.type, r.score))
      (⟨task.id, trialIndex, passed, scores, results, graded.snd.getEntries,
        outcome, 0, none⟩,
       ⟨true, true, hasContext, conv.snd.snd⟩)

/-- Whether the transcript contains an `error` entry carrying `msg`. -/
def transcriptHasError (entries : List TranscriptEntry) (msg : String) : Bool :=
  entries.any (fun en =>
    en.type = "error" &&
    match en.content with
    | .error m _ => m = msg
    | _ => false)

-- ==================== Demo constants used by witnesses ====================

def paDemo0 : PortAllocator := PortAllocator.mk0 5200 100

def paDemo1 : PortAllocator :=
  ⟨5200, 100, insert 5201 (insert 5200 (∅ : Finset Nat)), [("001-demo", 5200)]⟩

def paDemoFull : PortAllocator :=
  ⟨10, 4, {10, 11, 12, 13}, [("001-a", 10), ("002-b", 12)]⟩

def wmDemo : WorkspaceManager :=
  (((WorkspaceManager.mk0 "/tmp/agent-aware-eval" 5200).create
      "001-a" 100 "abcdef").snd.create "002-b" 200 "ghijkl").snd

def wmDemoW1 : IsolatedWorkspace :=
  ⟨"001-a-100-abcdef", "001-a",
   ["/tmp/agent-aware-eval", "001-a-100-abcdef"],
   ["/tmp/agent-aware-eval", "001-a-100-abcdef", ".agent-aware"],
   5200, 5201, false, 100⟩

def wmDemoW2 : IsolatedWorkspace :=
  ⟨"002-b-200-ghijkl", "002-b",
   ["/tmp/agent-aware-eval", "002-b-200-ghijkl"],
   ["/tmp/agent-aware-eval", "002-b-200-ghijkl", ".agent-aware"],
   5202, 5203, false, 200⟩

deriving instance DecidableEq for Except

/-- The step-invariant of the limiter: the slot count never exceeds the
configured bound, the enqueue log equals the wake log followed by the
still-waiting queue, and the bound is never modified. -/
def LimiterInv (maxC : Nat) (s : LimiterState) : Prop :=
  s.maxConcurrency = maxC ∧ s.holders.length ≤ maxC ∧
  s.arrived = s.woken ++ s.queue

/-- Pairwise disjointness of two workspaces' `{devPort, serverPort}` pairs. -/
def wmPortsDisjoint (w1 w2 : IsolatedWorkspace) : Prop :=
  w1.devPort ≠ w2.devPort ∧ w1.devPort ≠ w2.serverPort ∧
  w1.serverPort ≠ w2.devPort ∧ w1.serverPort ≠ w2.serverPort

/-- Per-entry well-formedness: the stored workspace is registered under its
own id, its directories are derived from that id under the manager's base
directory, and its ports form a contiguous pair. -/
def wmEntryOk (bd : String) (kw : String × IsolatedWorkspace) : Prop :=
  kw.snd.id = kw.fst ∧ kw.snd.projectDir = [bd, kw.fst] ∧
  kw.snd.agentAwareDir = [bd, kw.fst, ".agent-aware"] ∧
  kw.snd.serverPort = kw.snd.devPort + 1

/-- The workspace-manager invariant. -/
def WMInv (bd : String) (m : WorkspaceManager) : Prop :=
  m.baseDir = bd ∧
  (m.workspaces.map Prod.fst).Nodup ∧
  (∀ kw ∈ m.workspaces, wmEntryOk bd kw) ∧
  (∀ kw ∈ m.workspaces, kw.snd.cleaned = false →
    kw.snd.devPort ∈ m.allocatedPorts ∧ kw.snd.serverPort ∈ m.allocatedPorts) ∧
  (∀ kw1 ∈ m.workspaces, ∀ kw2 ∈ m.workspaces, kw1.fst ≠ kw2.fst →
    kw1.snd.cleaned = false → kw2.snd.cleaned = false →
    wmPortsDisjoint kw1.snd kw2.snd)

def c10Ctx : TaskContext := ⟨5204, 5205, 0, 3⟩

def c10Task : EvalTask :=
  { id := "002-server-startup"
    name := "Server startup"
    description := "start the behavior-collection server"
    userMessages := ["Start a server on port 4100"]
    graders :=
      [GraderConfig.server ⟨4100, "/behaviors", some 30000, some "POST",
        some "pnpm start"⟩,
       GraderConfig.storage ⟨"data/behaviors.json", some 1, none⟩]
    timeout := some 300000
    setupScript := some "echo \x7b\x7bSERVER_PORT\x7d\x7d"
    category := some "agent-aware"
    templateId := some "node-server" }

def demoResponse : AIResponse :=
  ⟨"I created the page.", [⟨"tc-1", "Write", "src/App.tsx", some "ok"⟩]⟩

def passResult : GraderResult :=
  ⟨"code", true, 1, [("fileExists", "package.json")], none⟩

def c1Task : EvalTask :=
  { id := "001-agent-aware-integration"
    name := "Agent aware integration"
    description := "integrate the tracking package"
    userMessages := ["Add @reskill/agent-aware to the project"]
    graders := [GraderConfig.code ⟨⟨none, none, some ["package.json"], none⟩⟩]
    timeout := none
    setupScript := none
    category := some "agent-aware"
    templateId := none }

def c1Oracle : TrialOracle :=
  { setup := .ok ()
    agent := fun _ => .ok demoResponse
    strategy := fun _ => .ok passResult
    listFiles := .ok ["package.json", "src/App.tsx"] }

def c5Task : EvalTask :=
  { c1Task with
    id := "004-context-reuse"
    userMessages := ["turn zero", "turn one"] }

def c5Oracle : TrialOracle :=
  { setup := .ok ()
    agent := fun i => if i = 0 then .error "AI API 调用失败: 500 - boom" else .ok demoResponse
    strategy := fun _ => .ok passResult
    listFiles := .ok ["package.json"] }

def c3Cfgs : List GraderConfig :=
  [GraderConfig.code ⟨⟨none, none, some ["package.json"], none⟩⟩,
   GraderConfig.unknownTag "bogus",
   GraderConfig.server ⟨5205, "/behaviors", none, some "POST", none⟩]

def c3Strategy : Nat → Except String GraderResult :=
  fun i => if i = 2 then .error "fetch failed: ECONNREFUSED" else .ok passResult

def c4Oracle : TrialOracle :=
  { c1Oracle with setup := .error "ENOSPC: no space left on device, mkdir" }

def c4OracleFiles : TrialOracle :=
  { c1Oracle with listFiles := .error "EACCES: permission denied, scandir" }

-- ==================== Theorems ====================

theorem assocLookup_eq_some_mem {α : Type} {k : String} {v : α} :
    ∀ {l : List (String × α)}, assocLookup k l = some v → (k, v) ∈ l := by
  intro l
  induction l with
  | nil => intro h; simp [assocLookup] at h
  | cons kv rest ih =>
    obtain ⟨k0, v0⟩ := kv
    intro h
    rw [assocLookup] at h
    by_cases hk : k0 = k
    · subst hk
      simp at h
      subst h
      exact List.mem_cons_self _ _
    · simp only [if_neg hk] at h
      exact List.mem_cons_of_mem _ (ih h)

/-- C7.  Port allocation is idempotent per task id: if `allocate(taskId)`
returned a pair and the updated allocator state, calling `allocate(taskId)`
again on that state (no intervening `release`) returns exactly the same pair
and leaves the state untouched — in particular no additional ports are marked
in use. -/
theorem portAllocator_allocate_idempotent (a : PortAllocator) (tid : String)
    (p : Nat × Nat) (a2 : PortAllocator)
    (h : a.allocate tid = .ok (p, a2)) :
    a2.allocate tid = .ok (p, a2) := by
  have hkey : assocLookup tid a2.portLock = some p.fst ∧ p.snd = p.fst + 1 := by
    simp only [PortAllocator.allocate] at h
    split at h
    next base heq =>
      simp only [Except.ok.injEq, Prod.mk.injEq] at h
      obtain ⟨hp, ha⟩ := h
      subst hp
      subst ha
      exact ⟨heq, rfl⟩
    next heq =>
      split at h
      · exact absurd h (by simp)
      · simp only [Except.ok.injEq, Prod.mk.injEq] at h
        obtain ⟨hp, ha⟩ := h
        subst hp
        subst ha
        exact ⟨by simp [assocLookup], rfl⟩
  obtain ⟨hkey1, hkey2⟩ := hkey
  have hp : (p.fst, p.fst + 1) = p := by rw [← hkey2]
  simp only [PortAllocator.allocate, hkey1, hp]

theorem portAllocator_allocate_idempotent_witness :
    paDemo1.allocate "001-demo" = .ok ((5200, 5201), paDemo1) :=
  portAllocator_allocate_idempotent paDemo0 "001-demo" (5200, 5201) paDemo1 (by decide)

theorem findFreePortGo_ge (allocated : Finset Nat) (bound : Nat) :
    ∀ (gas port : Nat), bound ≤ gas + port →
      (∀ j : Nat, port + 2 * j < bound → port + 2 * j ∈ allocated) →
      bound ≤ findFreePortGo allocated bound gas port := by
  intro gas
  induction gas with
  | zero =>
    intro port hgas _
    simpa [findFreePortGo] using hgas
  | succ g ih =>
    intro port hgas hall
    rw [findFreePortGo]
    split
    · apply ih (port + 2) (by omega)
      intro j hj
      have := hall (j + 1) (by omega)
      have harith : port + 2 * (j + 1) = port + 2 + 2 * j := by omega
      rwa [harith] at this
    · next hcond =>
      by_contra hlt
      push_neg at hlt
      exact hcond ⟨by simpa using hall 0 (by omega), hlt⟩

/-- C8.  When every port pair in the configured range is already marked
in use, a further allocation for a new task id throws the
port-exhaustion error instead of returning a pair. -/
theorem portAllocator_exhausted_fails (a : PortAllocator) (tid : String)
    (hnew : assocLookup tid a.portLock = none)
    (hfull : ∀ j : Nat, a.basePort + 2 * j < a.basePort + a.portRange →
      a.basePort + 2 * j ∈ a.allocatedPorts) :
    a.allocate tid = .error "端口资源耗尽，无法分配更多端口" := by
  have hge := findFreePortGo_ge a.allocatedPorts (a.basePort + a.portRange)
    (a.basePort + a.portRange) a.basePort (by omega) hfull
  simp only [PortAllocator.allocate, hnew]
  rw [if_pos hge]

theorem portAllocator_exhausted_fails_witness :
    paDemoFull.allocate "003-c" = .error "端口资源耗尽，无法分配更多端口" :=
  portAllocator_exhausted_fails paDemoFull "003-c" (by decide)
    (by
      intro j hj
      have hj2 : j = 0 ∨ j = 1 := by
        simp only [paDemoFull] at hj
        omega
      rcases hj2 with h0 | h1
      · subst h0; decide
      · subst h1; decide)

theorem limiter_step_inv (maxC : Nat) (s : LimiterState) (e : LimiterEvent)
    (hinv : LimiterInv maxC s)
    (hvalid : match e with
      | .acquire w => w ∉ s.holders ∧ w ∉ s.queue
      | .release w => w ∈ s.holders) :
    LimiterInv maxC (s.stepEvent e) := by
  obtain ⟨hmax, hlen, hfifo⟩ := hinv
  cases e with
  | acquire w =>
    simp only [LimiterState.stepEvent, LimiterState.acquire]
    split
    · next hlt =>
      refine ⟨hmax, ?_, by simpa using hfifo⟩
      simp only [List.length_append, List.length_singleton]
      omega
    · exact ⟨hmax, by simpa using hlen, by simp [hfifo, List.append_assoc]⟩
  | release w =>
    simp only [LimiterState.stepEvent, LimiterState.release]
    have herase : (s.holders.erase w).length = s.holders.length - 1 :=
      List.length_erase_of_mem hvalid
    have hpos : 1 ≤ s.holders.length := List.length_pos.mpr (by
      intro hnil; rw [hnil] at hvalid; exact absurd hvalid (List.not_mem_nil w))
    cases hq : s.queue with
    | nil =>
      refine ⟨hmax, ?_, ?_⟩
      · simp only [herase]; omega
      · simpa [hq] using hfifo
    | cons x rest =>
      refine ⟨hmax, ?_, ?_⟩
      · simp only [List.length_append, List.length_singleton, herase]; omega
      · rw [hq] at hfifo
        simp only [hfifo, List.append_assoc, List.singleton_append]

theorem limiter_run_inv (maxC : Nat) :
    ∀ (events : List LimiterEvent) (s : LimiterState),
      LimiterInv maxC s → validEvents s events = true →
      LimiterInv maxC (s.run events) := by
  intro events
  induction events with
  | nil => intro s hinv _; simpa [LimiterState.run] using hinv
  | cons e rest ih =>
    intro s hinv hvalid
    rw [LimiterState.run]
    cases e with
    | acquire w =>
      simp only [validEvents, Bool.and_eq_true, Bool.not_eq_true',
        decide_eq_false_iff_not] at hvalid
      exact ih _ (limiter_step_inv maxC s (.acquire w) hinv
        ⟨hvalid.1.1, hvalid.1.2⟩) hvalid.2
    | release w =>
      simp only [validEvents, Bool.and_eq_true, decide_eq_true_eq] at hvalid
      exact ih _ (limiter_step_inv maxC s (.release w) hinv hvalid.1) hvalid.2

/-- C9.  For every balanced interleaving of `acquire`/`release` events on
a `ConcurrencyLimiter` built with `maxConcurrency`, the number of callers
concurrently holding a slot never exceeds `maxConcurrency` (every reachable
state, hence every prefix of the trace, satisfies the bound), and waiters are
woken by `release()` exactly in their arrival order: at every point the
enqueue history equals the wake history followed by the still-suspended
queue, so the wake order is the FIFO arrival order. -/
theorem limiter_bound_and_fifo (maxC : Nat) (events : List LimiterEvent)
    (hvalid : validEvents (LimiterState.init maxC) events = true) :
    ((LimiterState.init maxC).run events).holders.length ≤ maxC ∧
    ((LimiterState.init maxC).run events).arrived =
      ((LimiterState.init maxC).run events).woken ++
        ((LimiterState.init maxC).run events).queue := by
  have h := limiter_run_inv maxC events (LimiterState.init maxC)
    ⟨rfl, by simp [LimiterState.init], by simp [LimiterState.init]⟩ hvalid
  exact ⟨h.2.1, h.2.2⟩

theorem limiter_bound_and_fifo_witness :
    ((LimiterState.init 1).run
      [.acquire 1, .acquire 2, .acquire 3, .release 1, .release 2, .release 3]
      ).holders.length ≤ 1 ∧
    ((LimiterState.init 1).run
      [.acquire 1, .acquire 2, .acquire 3, .release 1, .release 2, .release 3]
      ).arrived =
      ((LimiterState.init 1).run
        [.acquire 1, .acquire 2, .acquire 3, .release 1, .release 2, .release 3]
        ).woken ++
      ((LimiterState.init 1).run
        [.acquire 1, .acquire 2, .acquire 3, .release 1, .release 2, .release 3]
        ).queue :=
  limiter_bound_and_fifo 1
    [.acquire 1, .acquire 2, .acquire 3, .release 1, .release 2, .release 3]
    (by decide)

theorem applyRecorderOp_extends (r : TranscriptRecorder) (op : RecorderOp)
    (h : op.isClear = false) :
    ∃ tail, (applyRecorderOp r op).entries = r.entries ++ tail := by
  cases op with
  | chunk now c p =>
    simp only [applyRecorderOp, TranscriptRecorder.recordChunk]
    split
    · exact ⟨_, rfl⟩
    · exact ⟨[], by simp⟩
  | clear now => simp [RecorderOp.isClear] at h
  | _ => exact ⟨_, rfl⟩

/-- C6 (amended).  For every sequence of public record operations — every
public mutating method of `TranscriptRecorder` except `clear()` — previously
appended entries are preserved verbatim, in order, as a prefix of the entry
list, and the entry count returned by `getEntries()` is monotonically
non-decreasing.  (`clear()`, also public, removes all entries; see the
counterexample.) -/
theorem transcript_append_only (ops : List RecorderOp) :
    ∀ (r : TranscriptRecorder), (∀ op ∈ ops, op.isClear = false) →
      r.getEntries <+: (applyRecorderOps r ops).getEntries ∧
      r.getEntries.length ≤ (applyRecorderOps r ops).getEntries.length := by
  induction ops with
  | nil =>
    intro r _
    exact ⟨List.prefix_refl _, le_refl _⟩
  | cons op rest ih =>
    intro r h
    have hop := h op (List.mem_cons_self _ _)
    obtain ⟨tail, htail⟩ := applyRecorderOp_extends r op hop
    have hrest := ih (applyRecorderOp r op)
      (fun o ho => h o (List.mem_cons_of_mem _ ho))
    rw [applyRecorderOps]
    constructor
    · exact List.IsPrefix.trans ⟨tail, by
        simpa [TranscriptRecorder.getEntries] using htail.symm⟩ hrest.1
    · calc r.getEntries.length
          ≤ (applyRecorderOp r op).getEntries.length := by
            simp [TranscriptRecorder.getEntries, htail]
        _ ≤ _ := hrest.2

theorem transcript_append_only_witness :
    (⟨0, [⟨3, "step_start", .stepStart "setup"⟩]⟩ :
        TranscriptRecorder).getEntries <+:
      (applyRecorderOps ⟨0, [⟨3, "step_start", .stepStart "setup"⟩]⟩
        [.userMessage 5 "hello", .stepFinish 7 "setup" true]).getEntries ∧
    ((⟨0, [⟨3, "step_start", .stepStart "setup"⟩]⟩ :
        TranscriptRecorder).getEntries).length ≤
      ((applyRecorderOps ⟨0, [⟨3, "step_start", .stepStart "setup"⟩]⟩
        [.userMessage 5 "hello", .stepFinish 7 "setup" true]).getEntries).length :=
  transcript_append_only [.userMessage 5 "hello", .stepFinish 7 "setup" true]
    ⟨0, [⟨3, "step_start", .stepStart "setup"⟩]⟩ (by decide)

/-- C6 (counterexample).  The claim quantifies over every sequence of
public `TranscriptRecorder` operations, and `clear()` is public: after
recording one user message and then calling `clear()`, the previously
appended entry is removed and the count returned by `getEntries()` drops
from 1 to 0, refuting both the no-removal and the monotonicity parts of the
claim as stated. -/
theorem transcript_clear_counterexample :
    ((applyRecorderOps (TranscriptRecorder.init 0)
        [.userMessage 5 "hello"]).getEntries).length = 1 ∧
    ((applyRecorderOps (TranscriptRecorder.init 0)
        [.userMessage 5 "hello", .clear 9]).getEntries).length = 0 ∧
    ¬(((applyRecorderOps (TranscriptRecorder.init 0)
          [.userMessage 5 "hello"]).getEntries).length ≤
        ((applyRecorderOps (TranscriptRecorder.init 0)
          [.userMessage 5 "hello", .clear 9]).getEntries).length) ∧
    ¬((applyRecorderOps (TranscriptRecorder.init 0)
          [.userMessage 5 "hello"]).getEntries <+:
        (applyRecorderOps (TranscriptRecorder.init 0)
          [.userMessage 5 "hello", .clear 9]).getEntries) := by
  refine ⟨by decide, by decide, by decide, ?_⟩
  intro hpre
  have := hpre.length_le
  simp [applyRecorderOps, applyRecorderOp, TranscriptRecorder.init,
    TranscriptRecorder.recordUserMessage, TranscriptRecorder.record,
    TranscriptRecorder.clear, TranscriptRecorder.getEntries] at this

theorem mapSet_map_fst {α : Type} (k : String) (v : α) :
    ∀ (l : List (String × α)),
      (mapSet k v l).map Prod.fst =
        if k ∈ l.map Prod.fst then l.map Prod.fst else l.map Prod.fst ++ [k] := by
  intro l
  induction l with
  | nil => simp [mapSet]
  | cons kv rest ih =>
    obtain ⟨k0, v0⟩ := kv
    by_cases hk : k0 = k
    · subst hk
      simp [mapSet]
    · simp only [mapSet, if_neg hk, List.map_cons, ih]
      by_cases hmem : k ∈ rest.map Prod.fst
      · simp [hmem, Ne.symm hk]
      · simp [hmem, Ne.symm hk]

theorem mapSet_mem_nodup {α : Type} (k : String) (v : α) :
    ∀ (l : List (String × α)), (l.map Prod.fst).Nodup →
      ∀ kw ∈ mapSet k v l, kw = (k, v) ∨ (kw ∈ l ∧ kw.fst ≠ k) := by
  intro l
  induction l with
  | nil =>
    intro _ kw hkw
    simp only [mapSet, List.mem_singleton] at hkw
    exact Or.inl hkw
  | cons kv rest ih =>
    obtain ⟨k0, v0⟩ := kv
    intro hnodup kw hkw
    simp only [List.map_cons, List.nodup_cons] at hnodup
    by_cases hk : k0 = k
    · subst hk
      simp only [mapSet, if_true, eq_self_iff_true, List.mem_cons] at hkw
      rcases hkw with h | h
      · exact Or.inl h
      · refine Or.inr ⟨List.mem_cons_of_mem _ h, ?_⟩
        intro hfst
        apply hnodup.1
        rw [← hfst]
        exact List.mem_map_of_mem Prod.fst h
    · simp only [mapSet, if_neg hk, List.mem_cons] at hkw
      rcases hkw with h | h
      · subst h
        exact Or.inr ⟨List.mem_cons_self _ _, hk⟩
      · rcases ih hnodup.2 kw h with h2 | h2
        · exact Or.inl h2
        · exact Or.inr ⟨List.mem_cons_of_mem _ h2.1, h2.2⟩

theorem keys_nodup_key_inj {α : Type} {k : String} {a b : α} :
    ∀ {l : List (String × α)}, (l.map Prod.fst).Nodup →
      (k, a) ∈ l → (k, b) ∈ l → a = b := by
  intro l
  induction l with
  | nil => intro _ ha; exact absurd ha (List.not_mem_nil _)
  | cons kv rest ih =>
    intro hnodup ha hb
    simp only [List.map_cons, List.nodup_cons] at hnodup
    rcases List.mem_cons.mp ha with ha1 | ha1 <;>
      rcases List.mem_cons.mp hb with hb1 | hb1
    · exact congrArg Prod.snd (ha1.trans hb1.symm)
    · exfalso
      apply hnodup.1
      have hmem : (k, b).fst ∈ rest.map Prod.fst := List.mem_map_of_mem Prod.fst hb1
      rw [← ha1]
      exact hmem
    · exfalso
      apply hnodup.1
      have hmem : (k, a).fst ∈ rest.map Prod.fst := List.mem_map_of_mem Prod.fst ha1
      rw [← hb1]
      exact hmem
    · exact ih hnodup.2 ha1 hb1

theorem wmFindPortGo_free (allocated : Finset Nat) :
    ∀ (gas port : Nat),
      (allocated.filter (fun x => port ≤ x)).card < gas →
      wmFindPortGo allocated gas port ∉ allocated ∧
      wmFindPortGo allocated gas port + 1 ∉ allocated := by
  intro gas
  induction gas with
  | zero => intro port h; exact absurd h (Nat.not_lt_zero _)
  | succ g ih =>
    intro port h
    rw [wmFindPortGo]
    split
    · next hcond =>
      apply ih
      have hsub : allocated.filter (fun x => port + 2 ≤ x) ⊆
          allocated.filter (fun x => port ≤ x) := by
        intro x hx
        simp only [Finset.mem_filter] at hx ⊢
        exact ⟨hx.1, by omega⟩
      have hnot : ¬(allocated.filter (fun x => port ≤ x) ⊆
          allocated.filter (fun x => port + 2 ≤ x)) := by
        intro hcontra
        rcases hcond with hw | hw
        · have hmem : port ∈ allocated.filter (fun x => port ≤ x) := by
            simp [Finset.mem_filter, hw]
          have h2 := hcontra hmem
          simp only [Finset.mem_filter] at h2
          omega
        · have hmem : port + 1 ∈ allocated.filter (fun x => port ≤ x) := by
            simp [Finset.mem_filter, hw]
          have h2 := hcontra hmem
          simp only [Finset.mem_filter] at h2
          omega
      have hlt := Finset.card_lt_card ((Finset.ssubset_def).mpr ⟨hsub, hnot⟩)
      omega
    · next hcond =>
      push_neg at hcond
      exact hcond

/-- The heart of the fresh-pair argument: the pair returned by
`WorkspaceManager.allocatePorts` is disjoint from every port already
marked allocated. -/
theorem wm_allocatePorts_fresh (m : WorkspaceManager) :
    (m.allocatePorts.fst.fst ∉ m.allocatedPorts ∧
      m.allocatePorts.fst.fst + 1 ∉ m.allocatedPorts) ∧
    m.allocatePorts.fst.snd = m.allocatePorts.fst.fst + 1 ∧
    m.allocatePorts.snd.allocatedPorts =
      insert (m.allocatePorts.fst.fst + 1)
        (insert m.allocatePorts.fst.fst m.allocatedPorts) ∧
    m.allocatePorts.snd.workspaces = m.workspaces ∧
    m.allocatePorts.snd.baseDir = m.baseDir := by
  refine ⟨?_, rfl, rfl, rfl, rfl⟩
  exact wmFindPortGo_free m.allocatedPorts (m.allocatedPorts.card + 1) m.basePort
    (Nat.lt_succ_of_le (Finset.card_filter_le _ _))

theorem wm_create_spec (m : WorkspaceManager) (taskId : String) (now : Nat)
    (rand : String) :
    (m.create taskId now rand).snd.baseDir = m.baseDir ∧
    (m.create taskId now rand).snd.allocatedPorts =
      m.allocatePorts.snd.allocatedPorts ∧
    (m.create taskId now rand).snd.workspaces =
      mapSet (mkWorkspaceId taskId now rand) (m.create taskId now rand).fst
        m.workspaces ∧
    (m.create taskId now rand).fst =
      { id := mkWorkspaceId taskId now rand
        taskId := taskId
        projectDir := [m.baseDir, mkWorkspaceId taskId now rand]
        agentAwareDir := [m.baseDir, mkWorkspaceId taskId now rand, ".agent-aware"]
        devPort := m.allocatePorts.fst.fst
        serverPort := m.allocatePorts.fst.snd
        cleaned := false
        createdAt := now } :=
  ⟨rfl, rfl, rfl, rfl⟩

theorem wm_create_inv (bd : String) (m : WorkspaceManager) (hinv : WMInv bd m)
    (taskId : String) (now : Nat) (rand : String) :
    WMInv bd (m.create taskId now rand).snd := by
  obtain ⟨hbase, hnodup, hok, hports, hdisj⟩ := hinv
  obtain ⟨⟨hfree1, hfree2⟩, hpair, halloc, _, _⟩ := wm_allocatePorts_fresh m
  obtain ⟨hbd2, halloc2, hwss2, hwsdef⟩ := wm_create_spec m taskId now rand
  have hwdev : (m.create taskId now rand).fst.devPort = m.allocatePorts.fst.fst := by
    rw [hwsdef]
  have hwserver : (m.create taskId now rand).fst.serverPort =
      m.allocatePorts.fst.fst + 1 := by rw [hwsdef]; exact hpair
  have hwclean : (m.create taskId now rand).fst.cleaned = false := by rw [hwsdef]
  refine ⟨by rw [hbd2]; exact hbase, ?_, ?_, ?_, ?_⟩
  · -- keys stay nodup
    rw [hwss2, mapSet_map_fst]
    split
    · exact hnodup
    · next hnew =>
      rw [List.nodup_append]
      refine ⟨hnodup, List.nodup_singleton _, ?_⟩
      intro a ha hb
      rw [List.mem_singleton] at hb
      subst hb
      exact hnew ha
  · -- every entry is well formed
    intro kw hkw
    rw [hwss2] at hkw
    rcases mapSet_mem_nodup _ _ _ hnodup kw hkw with hnew | hold
    · subst hnew
      refine ⟨by rw [hwsdef], ?_, ?_, ?_⟩
      · show (m.create taskId now rand).fst.projectDir = _
        rw [hwsdef, hbase]
      · show (m.create taskId now rand).fst.agentAwareDir = _
        rw [hwsdef, hbase]
      · show (m.create taskId now rand).fst.serverPort = _
        rw [hwserver, hwdev]
    · exact hok kw hold.1
  · -- active entries own allocated ports
    intro kw hkw hactive
    rw [hwss2] at hkw
    rw [halloc2, halloc]
    rcases mapSet_mem_nodup _ _ _ hnodup kw hkw with hnew | hold
    · subst hnew
      constructor
      · show (m.create taskId now rand).fst.devPort ∈ _
        rw [hwdev]
        exact Finset.mem_insert_of_mem (Finset.mem_insert_self _ _)
      · show (m.create taskId now rand).fst.serverPort ∈ _
        rw [hwserver]
        exact Finset.mem_insert_self _ _
    · obtain ⟨hd, hs⟩ := hports kw hold.1 hactive
      exact ⟨Finset.mem_insert_of_mem (Finset.mem_insert_of_mem hd),
        Finset.mem_insert_of_mem (Finset.mem_insert_of_mem hs)⟩
  · -- active entries have pairwise-disjoint port pairs
    intro kw1 hkw1 kw2 hkw2 hne hact1 hact2
    rw [hwss2] at hkw1 hkw2
    rcases mapSet_mem_nodup _ _ _ hnodup kw1 hkw1 with hnew1 | hold1 <;>
      rcases mapSet_mem_nodup _ _ _ hnodup kw2 hkw2 with hnew2 | hold2
    · exact absurd (by rw [hnew1, hnew2]) hne
    · -- kw1 is the fresh workspace, kw2 is an older active one
      obtain ⟨hd2, hs2⟩ := hports kw2 hold2.1 hact2
      have h1d : kw1.snd.devPort = m.allocatePorts.fst.fst := by rw [hnew1]; exact hwdev
      have h1s : kw1.snd.serverPort = m.allocatePorts.fst.fst + 1 := by
        rw [hnew1]; exact hwserver
      refine ⟨?_, ?_, ?_, ?_⟩
      · intro he; apply hfree1; rw [← h1d, he]; exact hd2
      · intro he; apply hfree1; rw [← h1d, he]; exact hs2
      · intro he; apply hfree2; rw [← h1s, he]; exact hd2
      · intro he; apply hfree2; rw [← h1s, he]; exact hs2
    · -- symmetric case
      obtain ⟨hd1, hs1⟩ := hports kw1 hold1.1 hact1
      have h2d : kw2.snd.devPort = m.allocatePorts.fst.fst := by rw [hnew2]; exact hwdev
      have h2s : kw2.snd.serverPort = m.allocatePorts.fst.fst + 1 := by
        rw [hnew2]; exact hwserver
      refine ⟨?_, ?_, ?_, ?_⟩
      · intro he; apply hfree1; rw [← h2d, ← he]; exact hd1
      · intro he; apply hfree2; rw [← h2s, ← he]; exact hd1
      · intro he; apply hfree1; rw [← h2d, ← he]; exact hs1
      · intro he; apply hfree2; rw [← h2s, ← he]; exact hs1
    · exact hdisj kw1 hold1.1 kw2 hold2.1 hne hact1 hact2

theorem wm_cleanup_inv (bd : String) (m : WorkspaceManager) (hinv : WMInv bd m)
    (id : String) (keep : Bool) : WMInv bd (m.cleanup id keep) := by
  obtain ⟨hbase, hnodup, hok, hports, hdisj⟩ := hinv
  unfold WorkspaceManager.cleanup
  cases hl : assocLookup id m.workspaces with
  | none =>
    simp only [hl]
    exact ⟨hbase, hnodup, hok, hports, hdisj⟩
  | some ws =>
    simp only [hl]
    by_cases hcl : ws.cleaned = true
    · rw [if_pos hcl]
      exact ⟨hbase, hnodup, hok, hports, hdisj⟩
    · rw [if_neg hcl]
      have hwscl : ws.cleaned = false := Bool.not_eq_true _ ▸ (by simpa using hcl)
      have hmem : (id, ws) ∈ m.workspaces := assocLookup_eq_some_mem hl
      have hwsOk := hok (id, ws) hmem
      have hidkeys : id ∈ m.workspaces.map Prod.fst :=
        List.mem_map_of_mem Prod.fst hmem
      refine ⟨hbase, ?_, ?_, ?_, ?_⟩
      · rw [mapSet_map_fst, if_pos hidkeys]
        exact hnodup
      · intro kw hkw
        rcases mapSet_mem_nodup _ _ _ hnodup kw hkw with hnew | hold
        · subst hnew
          exact ⟨hwsOk.1, hwsOk.2.1, hwsOk.2.2.1, hwsOk.2.2.2⟩
        · exact hok kw hold.1
      · intro kw hkw hactive
        rcases mapSet_mem_nodup _ _ _ hnodup kw hkw with hnew | hold
        · rw [hnew] at hactive
          simp at hactive
        · obtain ⟨hd, hs⟩ := hports kw hold.1 hactive
          have hdj := hdisj kw hold.1 (id, ws) hmem hold.2 hactive hwscl
          constructor
          · rw [Finset.mem_erase, Finset.mem_erase]
            exact ⟨hdj.2.1, hdj.1, hd⟩
          · rw [Finset.mem_erase, Finset.mem_erase]
            exact ⟨hdj.2.2.2, hdj.2.2.1, hs⟩
      · intro kw1 hkw1 kw2 hkw2 hne hact1 hact2
        rcases mapSet_mem_nodup _ _ _ hnodup kw1 hkw1 with hnew1 | hold1
        · rw [hnew1] at hact1
          simp at hact1
        rcases mapSet_mem_nodup _ _ _ hnodup kw2 hkw2 with hnew2 | hold2
        · rw [hnew2] at hact2
          simp at hact2
        exact hdisj kw1 hold1.1 kw2 hold2.1 hne hact1 hact2

theorem wm_reachable_inv (bd : String) (bp : Nat) (m : WorkspaceManager)
    (h : WMReachable bd bp m) : WMInv bd m := by
  induction h with
  | init =>
    refine ⟨rfl, ?_, ?_, ?_, ?_⟩ <;> simp [WorkspaceManager.mk0]
  | step hr hs ih =>
    cases hs with
    | create tid now rand => exact wm_create_inv bd _ ih tid now rand
    | cleanup i k => exact wm_cleanup_inv bd _ ih i k

/-- C2.  In every reachable state of one `WorkspaceManager`, any two
distinct workspaces that are simultaneously active (created, still tracked,
and not yet cleaned) have distinct project directories, distinct
`.agent-aware` detection directories, and pairwise-disjoint
`{devPort, serverPort}` pairs. -/
theorem workspace_isolation (bd : String) (bp : Nat) (m : WorkspaceManager)
    (hreach : WMReachable bd bp m) (k1 k2 : String)
    (w1 w2 : IsolatedWorkspace)
    (h1 : (k1, w1) ∈ m.workspaces) (h2 : (k2, w2) ∈ m.workspaces)
    (hne : w1 ≠ w2) (hc1 : w1.cleaned = false) (hc2 : w2.cleaned = false) :
    w1.projectDir ≠ w2.projectDir ∧ w1.agentAwareDir ≠ w2.agentAwareDir ∧
    wmPortsDisjoint w1 w2 := by
  obtain ⟨hbase, hnodup, hok, hports, hdisj⟩ := wm_reachable_inv bd bp m hreach
  have hkne : k1 ≠ k2 := by
    intro hkeq
    subst hkeq
    exact hne (keys_nodup_key_inj hnodup h1 h2)
  have hok1 := hok (k1, w1) h1
  have hok2 := hok (k2, w2) h2
  refine ⟨?_, ?_, hdisj (k1, w1) h1 (k2, w2) h2 hkne hc1 hc2⟩
  · rw [hok1.2.1, hok2.2.1]
    simp [hkne]
  · rw [hok1.2.2.1, hok2.2.2.1]
    simp [hkne]

theorem workspace_isolation_witness :
    wmDemoW1.projectDir ≠ wmDemoW2.projectDir ∧
    wmDemoW1.agentAwareDir ≠ wmDemoW2.agentAwareDir ∧
    wmPortsDisjoint wmDemoW1 wmDemoW2 :=
  workspace_isolation "/tmp/agent-aware-eval" 5200 wmDemo
    (.step (.step .init (.create _ "001-a" 100 "abcdef"))
      (.create _ "002-b" 200 "ghijkl"))
    "001-a-100-abcdef" "002-b-200-ghijkl" wmDemoW1 wmDemoW2
    (by decide) (by decide) (by decide) rfl rfl

theorem replaceSubGo_id (pat repl : List Char) :
    ∀ (fuel : Nat) (s : List Char), containsSub pat s = false →
      replaceSubGo pat repl fuel s = s := by
  intro fuel
  induction fuel with
  | zero =>
    intro s _
    cases s <;> rfl
  | succ f ih =>
    intro s hs
    cases s with
    | nil => rfl
    | cons c rest =>
      simp only [containsSub, Bool.or_eq_false_iff] at hs
      rw [replaceSubGo, if_neg, ih rest hs.2]
      intro hcond
      rw [hcond.2] at hs
      exact absurd hs.1 (by simp)

theorem replace4100Go_id (repl : List Char) :
    ∀ (fuel : Nat) (prev : Bool) (s : List Char),
      containsStandalone4100 prev s = false →
      replace4100Go repl fuel prev s = s := by
  intro fuel
  induction fuel with
  | zero =>
    intro prev s _
    cases s <;> rfl
  | succ f ih =>
    intro prev s hs
    cases s with
    | nil => rfl
    | cons c rest =>
      simp only [containsStandalone4100, Bool.or_eq_false_iff,
        Bool.and_eq_false_iff] at hs
      rw [replace4100Go, if_neg, ih (isWordChar c) rest hs.2]
      intro hcond
      obtain ⟨hprev, hpre, hnext⟩ := hcond
      rcases hs.1 with h | h
      · rcases h with h | h
        · simp at h
          exact hprev h
        · rw [hpre] at h
          exact absurd h (by simp)
      · simp at h
        exact hnext h

theorem replacePortPlaceholders_id (ctx : TaskContext) (s : String)
    (h : noPortTokens s = true) : replacePortPlaceholders ctx s = s := by
  simp only [noPortTokens, Bool.and_eq_true, Bool.not_eq_true',
    decide_eq_true_eq] at h
  obtain ⟨⟨h1, h2⟩, h3⟩ := h
  simp only [replacePortPlaceholders, replaceSub]
  rw [replaceSubGo_id _ _ _ _ h1, replaceSubGo_id _ _ _ _ h2,
    replace4100Go_id _ _ _ _ h3]

theorem rewriteGraderPorts_not_rewritten (ctx : TaskContext)
    (g : GraderConfig) (h : g.isPortRewritten = false) :
    rewriteGraderPorts ctx g = g := by
  cases g <;> first
    | rfl
    | simp [GraderConfig.isPortRewritten] at h

/-- C10.  `rewriteTaskPorts(task, context)` changes only port-bearing
data: the task's `id`, `name`, `description`, `timeout`, `category` and
`templateId` are returned unchanged; grader configurations whose tag is not
`server`, `runtime`, `data-collection` or `error-handle` are returned
unchanged, and those four tags only have their `port` field set (`runtime`
to the dev port, the other three to the server port); `setupScript` and
every user message go through `replacePortPlaceholders`, which substitutes
the SERVER_PORT and DEV_PORT placeholders and every word-bounded literal
`4100` by the allocated ports and leaves any string free of those tokens
identical. -/
theorem rewriteTaskPorts_frame (task : EvalTask) (ctx : TaskContext) :
    (rewriteTaskPorts task ctx).id = task.id ∧
    (rewriteTaskPorts task ctx).name = task.name ∧
    (rewriteTaskPorts task ctx).description = task.description ∧
    (rewriteTaskPorts task ctx).timeout = task.timeout ∧
    (rewriteTaskPorts task ctx).category = task.category ∧
    (rewriteTaskPorts task ctx).templateId = task.templateId ∧
    (rewriteTaskPorts task ctx).graders.length = task.graders.length ∧
    (∀ (i : Nat) (h : i < task.graders.length),
      (task.graders[i].isPortRewritten = false →
        (rewriteTaskPorts task ctx).graders[i]? = some task.graders[i]) ∧
      (∀ cfg, task.graders[i] = GraderConfig.server cfg →
        (rewriteTaskPorts task ctx).graders[i]? =
          some (.server { cfg with port := ctx.serverPort })) ∧
      (∀ cfg, task.graders[i] = GraderConfig.runtime cfg →
        (rewriteTaskPorts task ctx).graders[i]? =
          some (.runtime { cfg with port := ctx.devPort })) ∧
      (∀ cfg, task.graders[i] = GraderConfig.dataCollection cfg →
        (rewriteTaskPorts task ctx).graders[i]? =
          some (.dataCollection { cfg with port := ctx.serverPort })) ∧
      (∀ cfg, task.graders[i] = GraderConfig.errorHandle cfg →
        (rewriteTaskPorts task ctx).graders[i]? =
          some (.errorHandle { cfg with port := ctx.serverPort }))) ∧
    (rewriteTaskPorts task ctx).userMessages =
      task.userMessages.map (replacePortPlaceholders ctx) ∧
    (rewriteTaskPorts task ctx).setupScript =
      task.setupScript.map (replacePortPlaceholders ctx) ∧
    (∀ s : String, noPortTokens s = true → replacePortPlaceholders ctx s = s) := by
  have hget : ∀ (i : Nat) (h : i < task.graders.length),
      (rewriteTaskPorts task ctx).graders[i]? =
        some (rewriteGraderPorts ctx task.graders[i]) := by
    intro i h
    show (task.graders.map (rewriteGraderPorts ctx))[i]? = _
    rw [List.getElem?_map, List.getElem?_eq_getElem h]
    rfl
  refine ⟨rfl, rfl, rfl, rfl, rfl, rfl, by simp [rewriteTaskPorts], ?_, rfl, rfl,
    fun s hs => replacePortPlaceholders_id ctx s hs⟩
  intro i h
  refine ⟨?_, ?_, ?_, ?_, ?_⟩
  · intro hnp
    rw [hget i h, rewriteGraderPorts_not_rewritten ctx _ hnp]
  · intro cfg hcfg
    rw [hget i h, hcfg]
    rfl
  · intro cfg hcfg
    rw [hget i h, hcfg]
    rfl
  · intro cfg hcfg
    rw [hget i h, hcfg]
    rfl
  · intro cfg hcfg
    rw [hget i h, hcfg]
    rfl

theorem rewriteTaskPorts_frame_witness :
    (rewriteTaskPorts c10Task c10Ctx).graders[0]? =
      some (GraderConfig.server ⟨5205, "/behaviors", some 30000, some "POST",
        some "pnpm start"⟩) ∧
    (rewriteTaskPorts c10Task c10Ctx).graders[1]? =
      some (GraderConfig.storage ⟨"data/behaviors.json", some 1, none⟩) ∧
    (rewriteTaskPorts c10Task c10Ctx).id = c10Task.id ∧
    (rewriteTaskPorts c10Task c10Ctx).userMessages =
      ["Start a server on port 5205"] ∧
    (rewriteTaskPorts c10Task c10Ctx).setupScript = some "echo 5205" ∧
    replacePortPlaceholders c10Ctx "ls src" = "ls src" := by
  obtain ⟨hid, -, -, -, -, -, -, hidx, hmsgs, hsetup, hnop⟩ :=
    rewriteTaskPorts_frame c10Task c10Ctx
  refine ⟨?_, ?_, hid, ?_, ?_, hnop "ls src" (by decide)⟩
  · have h := (hidx 0 (by decide)).2.1
      ⟨4100, "/behaviors", some 30000, some "POST", some "pnpm start"⟩ (by decide)
    exact h.trans (by decide)
  · have h := (hidx 1 (by decide)).1 (by decide)
    exact h.trans (by decide)
  · exact hmsgs.trans (by decide)
  · exact hsetup.trans (by decide)

theorem runGrader_fst (cfg : GraderConfig) (out : Except String GraderResult)
    (r : TranscriptRecorder) : (runGrader cfg out r).fst = graderOutcome cfg out := by
  cases h : dispatchGrader cfg out <;> simp [runGrader, graderOutcome, h]

theorem runGraders_spec (strat : Nat → Except String GraderResult) :
    ∀ (cfgs : List GraderConfig) (i : Nat) (r : TranscriptRecorder),
      (runGraders strat cfgs i r).fst.length = cfgs.length ∧
      ∀ (j : Nat) (h : j < cfgs.length),
        (runGraders strat cfgs i r).fst[j]? =
          some (graderOutcome cfgs[j] (strat (i + j))) := by
  intro cfgs
  induction cfgs with
  | nil =>
    intro i r
    exact ⟨rfl, fun j h => absurd h (by simp)⟩
  | cons cfg rest ih =>
    intro i r
    constructor
    · show ((runGrader cfg (strat i) r).fst ::
        (runGraders strat rest (i + 1) (runGrader cfg (strat i) r).snd).fst).length = _
      simp [(ih (i + 1) (runGrader cfg (strat i) r).snd).1]
    · intro j hj
      cases j with
      | zero =>
        show ((runGrader cfg (strat i) r).fst ::
          (runGraders strat rest (i + 1) (runGrader cfg (strat i) r).snd).fst)[0]? = _
        rw [List.getElem?_cons_zero, runGrader_fst]
        rfl
      | succ jj =>
        show ((runGrader cfg (strat i) r).fst ::
          (runGraders strat rest (i + 1) (runGrader cfg (strat i) r).snd).fst)[jj + 1]? = _
        rw [List.getElem?_cons_succ,
          (ih (i + 1) (runGrader cfg (strat i) r).snd).2 jj
            (by simp only [List.length_cons] at hj; omega)]
        have harith : i + 1 + jj = i + (jj + 1) := by omega
        rw [harith]
        rfl

theorem runConversation_calls (agent : Nat → Except String AIResponse) :
    ∀ (msgs : List String) (i : Nat) (acc : List UIMessage)
      (r : TranscriptRecorder) (c : Nat),
      (runConversation agent msgs i acc r c).snd.snd = c + msgs.length := by
  intro msgs
  induction msgs with
  | nil => intro i acc r c; simp [runConversation]
  | cons m rest ih =>
    intro i acc r c
    rw [runConversation, ih]
    simp only [List.length_cons]
    omega

theorem record_extendsEntries (r : TranscriptRecorder) (now : Nat) (t : String)
    (c : TEntryContent) : r.entries <+: (r.record now t c).entries :=
  ⟨_, rfl⟩

theorem foldl_toolCalls_extendsEntries (tcs : List ToolCall) :
    ∀ r : TranscriptRecorder,
      r.entries <+: (tcs.foldl
        (fun r tc => r.recordToolCall 0 tc.toolName tc.input tc.output) r).entries := by
  induction tcs with
  | nil => intro r; exact List.prefix_refl _
  | cons tc rest ih =>
    intro r
    rw [List.foldl_cons]
    exact List.IsPrefix.trans (record_extendsEntries r 0 "tool_call" _) (ih _)

theorem runAgentTurn_extendsEntries (out : Except String AIResponse) (msg : String)
    (prev : List UIMessage) (r : TranscriptRecorder) :
    r.entries <+: (runAgentTurn out msg prev r).snd.snd.entries := by
  unfold runAgentTurn
  cases out with
  | ok resp =>
    exact List.IsPrefix.trans (record_extendsEntries r 0 "user_message" _)
      (List.IsPrefix.trans (record_extendsEntries _ 0 "assistant_message" _)
        (foldl_toolCalls_extendsEntries resp.toolCalls _))
  | error msg2 =>
    exact List.IsPrefix.trans (record_extendsEntries r 0 "user_message" _)
      (record_extendsEntries _ 0 "error" _)

theorem runConversation_extendsEntries (agent : Nat → Except String AIResponse) :
    ∀ (msgs : List String) (i : Nat) (acc : List UIMessage)
      (r : TranscriptRecorder) (c : Nat),
      r.entries <+: (runConversation agent msgs i acc r c).snd.fst.entries := by
  intro msgs
  induction msgs with
  | nil => intro i acc r c; exact List.prefix_refl _
  | cons m rest ih =>
    intro i acc r c
    rw [runConversation]
    exact List.IsPrefix.trans (runAgentTurn_extendsEntries (agent i) m acc r)
      (ih (i + 1) _ _ (c + 1))

theorem runGrader_extendsEntries (cfg : GraderConfig) (out : Except String GraderResult)
    (r : TranscriptRecorder) : r.entries <+: (runGrader cfg out r).snd.entries := by
  unfold runGrader
  cases dispatchGrader cfg out with
  | ok result =>
    exact List.IsPrefix.trans (record_extendsEntries r 0 "step_start" _)
      (List.IsPrefix.trans (record_extendsEntries _ 0 "step_finish" _)
        (record_extendsEntries _ 0 "grader_result" _))
  | error msg =>
    exact List.IsPrefix.trans (record_extendsEntries r 0 "step_start" _)
      (List.IsPrefix.trans (record_extendsEntries _ 0 "step_finish" _)
        (record_extendsEntries _ 0 "error" _))

theorem runGraders_extendsEntries (strat : Nat → Except String GraderResult) :
    ∀ (cfgs : List GraderConfig) (i : Nat) (r : TranscriptRecorder),
      r.entries <+: (runGraders strat cfgs i r).snd.entries := by
  intro cfgs
  induction cfgs with
  | nil => intro i r; exact List.prefix_refl _
  | cons cfg rest ih =>
    intro i r
    exact List.IsPrefix.trans (runGrader_extendsEntries cfg (strat i) r) (ih (i + 1) _)

theorem transcriptHasError_mono {l1 l2 : List TranscriptEntry} {e : String}
    (h : l1 <+: l2) (he : transcriptHasError l1 e = true) :
    transcriptHasError l2 e = true := by
  simp only [transcriptHasError, List.any_eq_true] at he ⊢
  obtain ⟨x, hx, hpx⟩ := he
  exact ⟨x, h.subset hx, hpx⟩

theorem runConversation_error (agent : Nat → Except String AIResponse) :
    ∀ (msgs : List String) (i : Nat) (acc : List UIMessage)
      (r : TranscriptRecorder) (c : Nat) (j : Nat) (e : String),
      j < msgs.length → agent (i + j) = .error e →
      transcriptHasError
        (runConversation agent msgs i acc r c).snd.fst.entries e = true := by
  intro msgs
  induction msgs with
  | nil =>
    intro i acc r c j e hj
    exact absurd hj (by simp)
  | cons m rest ih =>
    intro i acc r c j e hj herr
    rw [runConversation]
    cases j with
    | zero =>
      rw [Nat.add_zero] at herr
      refine transcriptHasError_mono
        (runConversation_extendsEntries agent rest (i + 1) _ _ (c + 1)) ?_
      unfold runAgentTurn
      rw [herr]
      simp [transcriptHasError, TranscriptRecorder.recordError,
        TranscriptRecorder.recordUserMessage, TranscriptRecorder.record]
    | succ jj =>
      have harith : i + 1 + jj = i + (jj + 1) := by omega
      exact ih (i + 1) _ _ (c + 1) jj e
        (by simp only [List.length_cons] at hj; omega) (by rw [harith]; exact herr)

/-- C1.  A task configured with zero graders is rejected by task-structure
validation (so no trial is produced for it, and in particular no zero-grader
trial can come back vacuously passed); and for every trial that completes
without an uncaught fault, `TrialResult.passed` equals the logical AND
(`List.all`) over all `GraderResult.passed` values of that trial's graders,
with exactly one result per configured grader — non-vacuously for every task
that passes validation. -/
theorem trial_pass_semantics :
    (∀ t : EvalTask, t.graders = [] → taskStructureValid t = false) ∧
    (∀ (task : EvalTask) (ti : Nat) (oracle : TrialOracle) (hc : Bool)
      (fs : List String), oracle.setup = .ok () → oracle.listFiles = .ok fs →
      (runTrial task ti oracle hc).fst.passed =
        (runTrial task ti oracle hc).fst.graderResults.all (fun r => r.passed) ∧
      (runTrial task ti oracle hc).fst.graderResults.length =
        task.graders.length ∧
      (taskStructureValid task = true →
        (runTrial task ti oracle hc).fst.graderResults ≠ [])) := by
  constructor
  · intro t ht
    simp [taskStructureValid, ht]
  · intro task ti oracle hc fs hsetup hfiles
    refine ⟨?_, ?_, ?_⟩
    · simp only [runTrial, hsetup, hfiles]
    · simp only [runTrial, hsetup, hfiles]
      exact (runGraders_spec oracle.strategy task.graders 0 _).1
    · intro hvalid hnil
      simp only [runTrial, hsetup, hfiles] at hnil
      have hlen := congrArg List.length hnil
      rw [(runGraders_spec oracle.strategy task.graders 0 _).1] at hlen
      simp only [taskStructureValid, Bool.and_eq_true, decide_eq_true_eq] at hvalid
      simp only [List.length_nil] at hlen
      omega

theorem trial_pass_semantics_witness :
    taskStructureValid { c1Task with graders := [] } = false ∧
    (runTrial c1Task 0 c1Oracle true).fst.passed =
      (runTrial c1Task 0 c1Oracle true).fst.graderResults.all
        (fun r => r.passed) ∧
    (runTrial c1Task 0 c1Oracle true).fst.graderResults.length = 1 ∧
    (runTrial c1Task 0 c1Oracle true).fst.graderResults ≠ [] := by
  obtain ⟨hpass, hlen, hnonempty⟩ := trial_pass_semantics.2 c1Task 0 c1Oracle
    true ["package.json", "src/App.tsx"] rfl rfl
  exact ⟨trial_pass_semantics.1 { c1Task with graders := [] } rfl,
    hpass, hlen.trans (by decide), hnonempty (by decide)⟩

/-- C3.  The grader dispatcher converts every thrown fault — including an
unrecognized configuration tag, which the dispatch switch itself throws on —
into a `GraderResult` with `passed = false`, `score = 0` and the fault
message in `error`, instead of crashing the trial; and the grading loop still
produces one result per configured grader in declaration order, each
determined solely by its own configuration and strategy outcome. -/
theorem grader_fault_isolation :
    (∀ (tag : String) (out : Except String GraderResult),
      dispatchGrader (.unknownTag tag) out =
        .error ("未知的评分器类型: " ++ tag)) ∧
    (∀ (strategy : Nat → Except String GraderResult) (cfgs : List GraderConfig)
      (r : TranscriptRecorder),
      (runGraders strategy cfgs 0 r).fst.length = cfgs.length ∧
      (∀ (i : Nat) (h : i < cfgs.length),
        (runGraders strategy cfgs 0 r).fst[i]? =
          some (graderOutcome cfgs[i] (strategy i)) ∧
        (∀ e, dispatchGrader cfgs[i] (strategy i) = .error e →
          (runGraders strategy cfgs 0 r).fst[i]? =
            some { type := cfgs[i].typeTag, passed := false, score := 0,
                   details := [], error := some e }))) := by
  constructor
  · intro tag out
    rfl
  · intro strategy cfgs r
    obtain ⟨hlen, hg⟩ := runGraders_spec strategy cfgs 0 r
    refine ⟨hlen, fun i h => ?_⟩
    have hgi := hg i h
    rw [Nat.zero_add] at hgi
    refine ⟨hgi, fun e he => ?_⟩
    rw [hgi]
    simp [graderOutcome, he]

theorem grader_fault_isolation_witness :
    dispatchGrader (.unknownTag "bogus") (.ok passResult) =
      .error ("未知的评分器类型: " ++ "bogus") ∧
    (runGraders c3Strategy c3Cfgs 0 (TranscriptRecorder.init 0)).fst.length = 3 ∧
    (runGraders c3Strategy c3Cfgs 0 (TranscriptRecorder.init 0)).fst[1]? =
      some { type := "bogus", passed := false, score := 0, details := [],
             error := some ("未知的评分器类型: " ++ "bogus") } ∧
    (runGraders c3Strategy c3Cfgs 0 (TranscriptRecorder.init 0)).fst[2]? =
      some { type := "server", passed := false, score := 0, details := [],
             error := some "fetch failed: ECONNREFUSED" } := by
  obtain ⟨hlen, hidx⟩ :=
    grader_fault_isolation.2 c3Strategy c3Cfgs (TranscriptRecorder.init 0)
  refine ⟨grader_fault_isolation.1 "bogus" (.ok passResult),
    hlen.trans (by decide), ?_, ?_⟩
  · have h := (hidx 1 (by decide)).2 ("未知的评分器类型: " ++ "bogus") (by decide)
    exact h.trans (by decide)
  · have h := (hidx 2 (by decide)).2 "fetch failed: ECONNREFUSED" (by decide)
    exact h.trans (by decide)

/-- C4.  `runTrial` never rethrows: it is a total function into
`TrialResult`.  For every fault thrown uncaught inside the trial — setup
(environment creation) or grading (building the outcome snapshot) — the
returned result has `passed = false`, empty grader results, the fault message
as the trial's `error` and recorded as a transcript error entry; grader
strategy faults never reach this path (a fault-free setup and file listing
give `error = none` whatever the strategies throw).  The `finally` block runs
on every path: the environment's cleanup whenever the environment was
created, and the port release whenever a task context was passed. -/
theorem trial_fault_handling (task : EvalTask) (ti : Nat) (oracle : TrialOracle)
    (hc : Bool) :
    ((runTrial task ti oracle hc).snd.envCreated = true →
      (runTrial task ti oracle hc).snd.cleanupCalled = true) ∧
    (runTrial task ti oracle hc).snd.portReleased = hc ∧
    (∀ e, oracle.setup = .error e →
      (runTrial task ti oracle hc).fst.passed = false ∧
      (runTrial task ti oracle hc).fst.graderResults = [] ∧
      (runTrial task ti oracle hc).fst.error = some e ∧
      transcriptHasError (runTrial task ti oracle hc).fst.transcript e = true) ∧
    (∀ e, oracle.setup = .ok () → oracle.listFiles = .error e →
      (runTrial task ti oracle hc).fst.passed = false ∧
      (runTrial task ti oracle hc).fst.graderResults = [] ∧
      (runTrial task ti oracle hc).fst.error = some e ∧
      transcriptHasError (runTrial task ti oracle hc).fst.transcript e = true ∧
      (runTrial task ti oracle hc).snd.cleanupCalled = true) ∧
    (∀ fs, oracle.setup = .ok () → oracle.listFiles = .ok fs →
      (runTrial task ti oracle hc).fst.error = none ∧
      (runTrial task ti oracle hc).snd.cleanupCalled = true) := by
  cases hsetup : oracle.setup with
  | error e0 =>
    refine ⟨?_, ?_, ?_, ?_, ?_⟩
    · intro h
      simp only [runTrial, hsetup] at h
      exact absurd h (by simp)
    · simp only [runTrial, hsetup]
    · intro e he
      injection he with heq
      subst heq
      refine ⟨?_, ?_, ?_, ?_⟩ <;> simp only [runTrial, hsetup]
      simp [transcriptHasError, TranscriptRecorder.recordError,
        TranscriptRecorder.recordStepStart, TranscriptRecorder.record,
        TranscriptRecorder.getEntries, TranscriptRecorder.init]
    · intro e hok
      simp at hok
    · intro fs hok
      simp at hok
  | ok u =>
    cases u
    cases hfiles : oracle.listFiles with
    | error e0 =>
      refine ⟨?_, ?_, ?_, ?_, ?_⟩
      · intro h
        simp only [runTrial, hsetup, hfiles]
      · simp only [runTrial, hsetup, hfiles]
      · intro e he
        simp at he
      · intro e _ hfe
        injection hfe with heq
        subst heq
        refine ⟨?_, ?_, ?_, ?_, ?_⟩ <;> simp only [runTrial, hsetup, hfiles]
        simp only [TranscriptRecorder.recordError, TranscriptRecorder.record,
          TranscriptRecorder.getEntries, transcriptHasError, List.any_append]
        simp
      · intro fs _ hff
        simp at hff
    | ok fs0 =>
      refine ⟨?_, ?_, ?_, ?_, ?_⟩
      · intro h
        simp only [runTrial, hsetup, hfiles]
      · simp only [runTrial, hsetup, hfiles]
      · intro e he
        simp at he
      · intro e _ hfe
        simp at hfe
      · intro fs _ hff
        exact ⟨by simp only [runTrial, hsetup, hfiles],
          by simp only [runTrial, hsetup, hfiles]⟩

theorem trial_fault_handling_witness :
    (runTrial c1Task 0 c4Oracle true).fst.passed = false ∧
    (runTrial c1Task 0 c4Oracle true).fst.graderResults = [] ∧
    (runTrial c1Task 0 c4Oracle true).fst.error =
      some "ENOSPC: no space left on device, mkdir" ∧
    transcriptHasError (runTrial c1Task 0 c4Oracle true).fst.transcript
      "ENOSPC: no space left on device, mkdir" = true ∧
    (runTrial c1Task 0 c4Oracle true).snd.portReleased = true ∧
    (runTrial c1Task 0 c4OracleFiles true).fst.error =
      some "EACCES: permission denied, scandir" ∧
    (runTrial c1Task 0 c4OracleFiles true).snd.cleanupCalled = true := by
  obtain ⟨-, hport, herrcase, -, -⟩ := trial_fault_handling c1Task 0 c4Oracle true
  obtain ⟨hp, hg, he, ht⟩ :=
    herrcase "ENOSPC: no space left on device, mkdir" rfl
  obtain ⟨-, -, -, hfcase, -⟩ := trial_fault_handling c1Task 0 c4OracleFiles true
  obtain ⟨-, -, he2, -, hcl⟩ :=
    hfcase "EACCES: permission denied, scandir" rfl rfl
  exact ⟨hp, hg, he, ht, hport, he2, hcl⟩

/-- C5 (amended).  If the agent client call for a conversation turn fails
(error or timeout), the failure is recorded as a transcript error entry and
that turn contributes no assistant response; but the conversation phase does
NOT end early — every configured turn is still sent to the agent (the call
count always equals the number of configured user messages) — and the grading
phase still runs against the workspace state as-is, one result per configured
grader. -/
theorem conversation_failure_handling (task : EvalTask) (ti : Nat)
    (oracle : TrialOracle) (hc : Bool) (fs : List String)
    (hsetup : oracle.setup = .ok ()) (hfiles : oracle.listFiles = .ok fs) :
    (runTrial task ti oracle hc).snd.agentCallsMade =
      task.userMessages.length ∧
    (runTrial task ti oracle hc).fst.graderResults.length =
      task.graders.length ∧
    (∀ (j : Nat) (e : String), j < task.userMessages.length →
      oracle.agent j = .error e →
      transcriptHasError (runTrial task ti oracle hc).fst.transcript e = true) := by
  refine ⟨?_, ?_, ?_⟩
  · simp only [runTrial, hsetup, hfiles]
    rw [runConversation_calls oracle.agent task.userMessages 0 [] _ 0]
    exact Nat.zero_add _
  · simp only [runTrial, hsetup, hfiles]
    exact (runGraders_spec oracle.strategy task.graders 0 _).1
  · intro j e hj herr
    simp only [runTrial, hsetup, hfiles]
    have hconv := runConversation_error oracle.agent task.userMessages 0 []
      ((((TranscriptRecorder.init 0).recordStepStart 0 "setup").recordStepFinish 0
        "setup" true).recordStepStart 0 "ai") 0 j e hj
      (by rw [Nat.zero_add]; exact herr)
    exact transcriptHasError_mono
      (List.IsPrefix.trans (record_extendsEntries _ 0 "step_finish" _)
        (runGraders_extendsEntries oracle.strategy task.graders 0 _)) hconv

theorem conversation_failure_handling_witness :
    (runTrial c5Task 0 c5Oracle true).snd.agentCallsMade =
      c5Task.userMessages.length ∧
    (runTrial c5Task 0 c5Oracle true).fst.graderResults.length = 1 ∧
    transcriptHasError (runTrial c5Task 0 c5Oracle true).fst.transcript
      "AI API 调用失败: 500 - boom" = true := by
  obtain ⟨hcalls, hglen, herr⟩ :=
    conversation_failure_handling c5Task 0 c5Oracle true ["package.json"] rfl rfl
  exact ⟨hcalls, hglen.trans (by decide),
    herr 0 "AI API 调用失败: 500 - boom" (by decide) rfl⟩

/-- C5 (counterexample).  The claim as stated requires that after the
agent call for turn 0 fails, no later conversation turn is sent to the agent
(here: exactly 1 call).  On the code, a two-turn task whose first agent call
throws still sends the second turn: both calls are made.  The failure is
recorded as a transcript error and grading still runs, but the conversation
phase does not end early. -/
theorem conversation_no_early_end_counterexample :
    (runTrial c5Task 0 c5Oracle true).snd.agentCallsMade = 2 ∧
    ¬((runTrial c5Task 0 c5Oracle true).snd.agentCallsMade = 1) := by
  constructor <;> decide

